import Mathlib

/-!
Shallow embedding of the RBC forecasting pipeline
(`rbc_forecast.py` and `streamlit_app.py`).

Dates are modelled as `ℤ` (ordinal days), prices as `ℚ`.  A pandas
DataFrame row `(ds, y)` becomes a pair `ℤ × ℚ`; a raw downloaded frame
becomes `RawFrame` below, with missing values (`NaN`) as `none`.
-/

namespace RBC

/-! ## Signal generator (`streamlit_app.py`) -/

/-- Embeds `compute_signal_pct` (streamlit_app.py lines 116-122):
`pct = (pred - last) / last * 100`; Buy when `pct >= thresh`,
Sell when `pct <= -thresh`, else Hold. -/
def compute_signal_pct (pred_price last_price thresh_percent : ℚ) : String :=
  let pct := (pred_price - last_price) / last_price * 100
  if thresh_percent ≤ pct then "Buy"
  else if pct ≤ -thresh_percent then "Sell"
  else "Hold"

/-- Embeds `composite_signal` (streamlit_app.py lines 155-161):
a two-element vote list; Buy when Buy votes outnumber Sell votes,
Sell when Sell votes outnumber Buy votes, else Hold. -/
def composite_signal (pct_sig ma_sig : String) : String :=
  let votes : List String := [pct_sig, ma_sig]
  if votes.count "Sell" < votes.count "Buy" then "Buy"
  else if votes.count "Buy" < votes.count "Sell" then "Sell"
  else "Hold"

/-- One step of pandas `drop_duplicates(subset="date")` (default
`keep="first"`): a row is appended only when its date has not occurred
among the rows already kept. -/
def dedupStep (acc : List (ℤ × ℚ)) (x : ℤ × ℚ) : List (ℤ × ℚ) :=
  if acc.any (fun y => y.1 == x.1) then acc else acc ++ [x]

/-- pandas `drop_duplicates(subset="date")`, keeping the first occurrence
of every date in row order. -/
def drop_duplicates_by_date (l : List (ℤ × ℚ)) : List (ℤ × ℚ) :=
  l.foldl dedupStep []

/-- The combined-series construction inside `compute_ma_signals`
(streamlit_app.py lines 127-135): concatenate history then predictions,
drop duplicate dates (pandas keeps the first occurrence), sort by date. -/
def combined_series (hist preds : List (ℤ × ℚ)) : List (ℤ × ℚ) :=
  (drop_duplicates_by_date (hist ++ preds)).mergeSort (fun a b => decide (a.1 ≤ b.1))

/-! ## Forecast engine (`rbc_forecast.py`, `train_and_forecast`) -/

/-- Python slice `df[:-t]` on a list: everything before the last `t`
rows; for `t = 0` this is `df[:0] = []` (since `-0 == 0` in Python). -/
def slice_drop_last (df : List (ℤ × ℚ)) (t : ℕ) : List (ℤ × ℚ) :=
  if t = 0 then [] else df.take (df.length - t)

/-- Python slice `df[-t:]` on a list: the last `min t (length df)` rows;
for `t = 0` this is `df[0:] = df`. -/
def slice_last (df : List (ℤ × ℚ)) (t : ℕ) : List (ℤ × ℚ) :=
  if t = 0 then df else df.drop (df.length - t)

/-- The train/test split performed by `train_and_forecast`
(rbc_forecast.py lines 70-72): `test_days = min(forecast_days, 90)`,
`train = df[:-test_days]`, `test = df[-test_days:]`.  The source performs
no history-sufficiency check before fitting. -/
def train_test_split (df : List (ℤ × ℚ)) (forecast_days : ℕ) :
    List (ℤ × ℚ) × List (ℤ × ℚ) :=
  let test_days := min forecast_days 90
  (slice_drop_last df test_days, slice_last df test_days)

/-! ## Accuracy evaluator (`rbc_forecast.py`, `evaluate`) -/

/-- Result of `evaluate`: the Python dict `{"rmse": ..., "mape": ...}`,
where `None` is `none`.  The RMSE is a real number because of the square
root; the MAPE stays rational. -/
structure Metrics where
  rmse : Option ℝ
  mape : Option ℚ

/-- The inner join `actual.join(pred, how="inner")` on the date index
(rbc_forecast.py lines 84-86): for each test row, pair its actual `y`
with the `yhat` of the forecast row carrying the same date, dropping
test rows with no matching date. -/
def joined_rows (test_df pred : List (ℤ × ℚ)) : List (ℚ × ℚ) :=
  test_df.filterMap
    (fun t => (pred.find? (fun r => r.1 == t.1)).map (fun r => (t.2, r.2)))

/-- The joined set used by `evaluate`: the forecast is first restricted to
rows whose date is in the test dates (`forecast["ds"].isin(test_df["ds"])`),
then inner-joined with the test rows. -/
def joined_of (forecast test_df : List (ℤ × ℚ)) : List (ℚ × ℚ) :=
  joined_rows test_df (forecast.filter (fun r => test_df.any (fun t => t.1 == r.1)))

/-- `np.mean((joined["y"] - joined["yhat"]) ** 2)` (rbc_forecast.py line 90,
before the square root). -/
def mse (j : List (ℚ × ℚ)) : ℚ :=
  (j.map (fun p => (p.1 - p.2) ^ 2)).sum / j.length

/-- `np.mean(np.abs((joined["y"] - joined["yhat"]) / joined["y"])) * 100`
(rbc_forecast.py line 91).  The source performs no zero check on the
actual value `y`; a zero actual divides by zero (IEEE `Inf`/`NaN` in the
source; in `ℚ` the junk value `x / 0 = 0` stands in for it — either way a
value is produced, not an absent metric). -/
def mape_val (j : List (ℚ × ℚ)) : ℚ :=
  (j.map (fun p => |(p.1 - p.2) / p.1|)).sum / j.length * 100

/-- Embeds `evaluate` (rbc_forecast.py lines 83-92): join on exact dates;
if the join is empty return `{"rmse": None, "mape": None}`; otherwise
compute both RMSE and MAPE unconditionally. -/
noncomputable def evaluate (forecast test_df : List (ℤ × ℚ)) : Metrics :=
  let joined := joined_of forecast test_df
  if joined.isEmpty then ⟨none, none⟩
  else ⟨some (Real.sqrt ((mse joined : ℚ) : ℝ)), some (mape_val joined)⟩

/-! ## Full-history forecaster (`streamlit_app.py` lines 57-62) -/

/-- The `next30` computation (streamlit_app.py lines 61-62):
`last_hist = df_full["ds"].max()`, then
`forecast_full[forecast_full["ds"] > last_hist].head(30)`. -/
def next_forecast (df_full forecast_full : List (ℤ × ℚ)) : List (ℤ × ℚ) :=
  let last_hist := ((df_full.map Prod.fst).max?).getD 0
  (forecast_full.filter (fun r => decide (last_hist < r.1))).take 30

/-! ## Series normalizer (`rbc_forecast.py`, `fetch_data`) -/

/-- A raw downloaded frame: either single-level columns or MultiIndex
(two-level) columns.  Each row is a date together with one optional value
per column (`none` models `NaN`). -/
inductive RawFrame : Type
  | flat (cols : List String) (rows : List (ℤ × List (Option ℚ)))
  | multi (cols : List (String × String)) (rows : List (ℤ × List (Option ℚ)))

/-- The two ways `fetch_data` can raise: a pandas `KeyError` from flat
column selection, or the explicit
`RuntimeError("Could not find Close column in downloaded data")`. -/
inductive FetchErr : Type
  | keyError
  | noClose
deriving DecidableEq, Repr

/-- Values of column `i`, one per row (`none` when the row is too short,
matching a missing cell). -/
def col_values (rows : List (ℤ × List (Option ℚ))) (i : ℕ) :
    List (ℤ × Option ℚ) :=
  rows.map (fun r => (r.1, (r.2.get? i).getD none))

/-- `out.dropna(inplace=True)`: keep only rows whose price is present. -/
def dropna (l : List (ℤ × Option ℚ)) : List (ℤ × ℚ) :=
  l.filterMap (fun p => p.2.map (fun v => (p.1, v)))

/-- Whether `pat` occurs at the head of `s`. -/
def substr_at : List Char → List Char → Bool
  | [], _ => true
  | _ :: _, [] => false
  | a :: as, b :: bs => a == b && substr_at as bs

/-- Whether `pat` occurs anywhere in `s`. -/
def substr_any (pat : List Char) : List Char → Bool
  | [] => substr_at pat []
  | a :: t => substr_at pat (a :: t) || substr_any pat t

/-- Python `"Close" in str(x)`: substring containment. -/
def contains_str (s pat : String) : Bool :=
  substr_any pat.data s.data

/-- The scan condition of fetch_data line 39:
`any("Close" == str(x) or "Close" in str(x) for x in col)` over the two
levels of a MultiIndex column label. -/
def close_in_col (c : String × String) : Bool :=
  (c.1 == "Close" || contains_str c.1 "Close")
    || (c.2 == "Close" || contains_str c.2 "Close")

/-- Embeds `fetch_data` (rbc_forecast.py lines 24-65) after the download:
an empty frame is returned as-is (`.ok []`, the caller tests emptiness);
MultiIndex columns go through `df["Close"]` (all columns with first level
`"Close"`, of which `iloc[:, 0]` takes the first), then a scan for any
label level equal to or containing `"Close"`, then `df["Adj Close"]`,
and finally the `RuntimeError`; flat columns select `"Close"` directly
(a `KeyError` when absent).  The selected column is `dropna`-ed and
returned even when that leaves it empty. -/
def fetch_data : RawFrame → Except FetchErr (List (ℤ × ℚ))
  | .flat cols rows =>
    if rows.isEmpty then .ok []
    else
      match cols.findIdx? (fun c => c == "Close") with
      | none => .error .keyError
      | some i => .ok (dropna (col_values rows i))
  | .multi cols rows =>
    if rows.isEmpty then .ok []
    else
      match cols.findIdx? (fun c => c.1 == "Close") with
      | some i => .ok (dropna (col_values rows i))
      | none =>
        match cols.findIdx? close_in_col with
        | some i => .ok (dropna (col_values rows i))
        | none =>
          match cols.findIdx? (fun c => c.1 == "Adj Close") with
          | some i => .ok (dropna (col_values rows i))
          | none => .error .noClose

/-! ## Helper lemmas on the dedup fold -/

theorem dedupStep_mem (acc : List (ℤ × ℚ)) (a x : ℤ × ℚ) (h : x ∈ dedupStep acc a) :
    x ∈ acc ∨ (x = a ∧ a.1 ∉ acc.map Prod.fst) := by
  unfold dedupStep at h
  split at h
  · exact .inl h
  · next hc =>
    rcases List.mem_append.mp h with h | h
    · exact .inl h
    · refine .inr ⟨List.mem_singleton.mp h, fun hd => ?_⟩
      rcases List.mem_map.mp hd with ⟨y, hy, hy1⟩
      have : acc.any (fun y => y.1 == a.1) = true :=
        List.any_eq_true.mpr ⟨y, hy, by simpa using hy1⟩
      simp [this] at hc

theorem dedupStep_dates_mono (acc : List (ℤ × ℚ)) (a : ℤ × ℚ) (d : ℤ)
    (h : d ∈ acc.map Prod.fst) : d ∈ (dedupStep acc a).map Prod.fst := by
  unfold dedupStep
  split
  · exact h
  · simp only [List.map_append]
    exact List.mem_append_left _ h

theorem dedupStep_date_self (acc : List (ℤ × ℚ)) (a : ℤ × ℚ) :
    a.1 ∈ (dedupStep acc a).map Prod.fst := by
  unfold dedupStep
  split
  · next hc =>
    rcases List.any_eq_true.mp hc with ⟨y, hy, hbeq⟩
    have hy1 : y.1 = a.1 := by simpa using hbeq
    exact List.mem_map.mpr ⟨y, hy, hy1⟩
  · simp

theorem foldl_dedup_mem (l : List (ℤ × ℚ)) :
    ∀ acc x, x ∈ l.foldl dedupStep acc → x ∈ acc ∨ (x ∈ l ∧ x.1 ∉ acc.map Prod.fst) := by
  induction l with
  | nil => exact fun acc x h => .inl h
  | cons a l ih =>
    intro acc x h
    rcases ih (dedupStep acc a) x h with h1 | ⟨h1, h2⟩
    · rcases dedupStep_mem acc a x h1 with h2 | ⟨rfl, h3⟩
      · exact .inl h2
      · exact .inr ⟨List.mem_cons_self _ _, h3⟩
    · refine .inr ⟨List.mem_cons_of_mem _ h1, fun hd => h2 ?_⟩
      exact dedupStep_dates_mono acc a x.1 hd

theorem foldl_dedup_dates (l : List (ℤ × ℚ)) :
    ∀ acc d, (d ∈ l.map Prod.fst ∨ d ∈ acc.map Prod.fst) →
      d ∈ (l.foldl dedupStep acc).map Prod.fst := by
  induction l with
  | nil => intro acc d h; simpa using h
  | cons a l ih =>
    intro acc d h
    rcases h with h | h
    · simp only [List.map_cons, List.mem_cons] at h
      rcases h with rfl | h
      · exact ih _ a.1 (.inr (dedupStep_date_self acc a))
      · exact ih _ d (.inl h)
    · exact ih _ d (.inr (dedupStep_dates_mono acc a d h))

/-- Unfolded form of `train_test_split` when `test_days` is nonzero
(which holds for every positive horizon). -/
theorem train_test_split_eq (df : List (ℤ × ℚ)) (fd : ℕ) (ht : min fd 90 ≠ 0) :
    train_test_split df fd =
      (df.take (df.length - min fd 90), df.drop (df.length - min fd 90)) := by
  unfold train_test_split slice_drop_last slice_last
  simp only [if_neg ht]

/-! ## Claim theorems -/

/-- C1 counterexample: the claim says any pairing of two distinct signals
yields Hold, but `composite_signal` on the pair (Buy, Hold) yields Buy. -/
theorem composite_signal_buy_hold_is_buy :
    composite_signal "Buy" "Hold" = "Buy" ∧ composite_signal "Buy" "Hold" ≠ "Hold" := by
  decide

/-- C1 (amended): the full vote table of `composite_signal`.  When the two
strategies agree the common signal is returned, and a Buy/Sell disagreement
yields Hold; but when exactly one strategy says Hold, the other strategy's
signal wins (Buy/Hold gives Buy, Sell/Hold gives Sell), not Hold. -/
theorem composite_signal_vote_table :
    composite_signal "Buy" "Buy" = "Buy" ∧
    composite_signal "Sell" "Sell" = "Sell" ∧
    composite_signal "Hold" "Hold" = "Hold" ∧
    composite_signal "Buy" "Sell" = "Hold" ∧
    composite_signal "Sell" "Buy" = "Hold" ∧
    composite_signal "Buy" "Hold" = "Buy" ∧
    composite_signal "Hold" "Buy" = "Buy" ∧
    composite_signal "Sell" "Hold" = "Sell" ∧
    composite_signal "Hold" "Sell" = "Sell" := by
  decide

/-- C5 counterexample: with last price 100, threshold 2 and predicted
price 102 the percent change is exactly the threshold (`pct = t`), and
the code emits Buy, not Hold as the claim's tie rule states. -/
theorem compute_signal_pct_tie_is_buy :
    compute_signal_pct 102 100 2 = "Buy" ∧ compute_signal_pct 102 100 2 ≠ "Hold" := by
  constructor
  · simp only [compute_signal_pct]
    norm_num
  · simp only [compute_signal_pct]
    norm_num
    decide

/-- C5 (amended): PercentThreshold emits Buy iff `pct ≥ t`, Sell iff
`pct ≤ -t`, and Hold iff `-t < pct < t`, where `pct = (p - L)/L × 100`;
the tie cases `pct = t` and `pct = -t` resolve to Buy and Sell
respectively, not to Hold. -/
theorem compute_signal_pct_characterization (p L t : ℚ) (hL : L ≠ 0) (ht : 0 < t) :
    (compute_signal_pct p L t = "Buy" ↔ t ≤ (p - L) / L * 100) ∧
    (compute_signal_pct p L t = "Sell" ↔ (p - L) / L * 100 ≤ -t) ∧
    (compute_signal_pct p L t = "Hold" ↔
      (-t < (p - L) / L * 100 ∧ (p - L) / L * 100 < t)) := by
  unfold compute_signal_pct
  by_cases h1 : t ≤ (p - L) / L * 100
  · rw [if_pos h1]
    refine ⟨by simp [h1], ?_, ?_⟩
    · constructor
      · intro hs; exact absurd hs (by decide)
      · intro h2; linarith
    · constructor
      · intro hs; exact absurd hs (by decide)
      · intro h2; linarith [h2.2]
  · rw [if_neg h1]
    by_cases h2 : (p - L) / L * 100 ≤ -t
    · rw [if_pos h2]
      refine ⟨?_, by simp [h2], ?_⟩
      · constructor
        · intro hs; exact absurd hs (by decide)
        · intro h3; exact absurd h3 h1
      · constructor
        · intro hs; exact absurd hs (by decide)
        · intro h3; linarith [h3.1]
    · rw [if_neg h2]
      push_neg at h1 h2
      refine ⟨?_, ?_, by simp [h1, h2]⟩
      · constructor
        · intro hs; exact absurd hs (by decide)
        · intro h3; linarith
      · constructor
        · intro hs; exact absurd hs (by decide)
        · intro h3; linarith

/-- Witness for the amended C5 theorem at `p = 103, L = 100, t = 1`. -/
theorem compute_signal_pct_characterization_witness :
    (compute_signal_pct 103 100 1 = "Buy" ↔ (1 : ℚ) ≤ (103 - 100) / 100 * 100) ∧
    (compute_signal_pct 103 100 1 = "Sell" ↔ (103 - 100 : ℚ) / 100 * 100 ≤ -1) ∧
    (compute_signal_pct 103 100 1 = "Hold" ↔
      (-(1 : ℚ) < (103 - 100) / 100 * 100 ∧ (103 - 100 : ℚ) / 100 * 100 < 1)) :=
  compute_signal_pct_characterization 103 100 1 (by norm_num) (by norm_num)

/-- C3 counterexample: a two-point series with horizon 5 has
`test_days = 5 ≥ 2 = length`, yet `train_and_forecast`'s split raises
nothing: it returns an empty training set together with the whole series
as test, and the code then proceeds to fit on the empty set. -/
theorem train_test_split_short_history :
    train_test_split [(0, 1), (1, 2)] 5 = ([], [(0, 1), (1, 2)]) := by
  decide

/-- C3 (amended): `train_and_forecast` sets `test_days = min(horizon, 90)`
and holds out the last `test_days` points as test with all preceding points
as train, but performs no `InsufficientHistory` check: when
`test_days ≥ length(series)` the training set is simply empty and the
function still returns the split. -/
theorem train_test_split_spec (df : List (ℤ × ℚ)) (fd : ℕ) (hfd : 0 < fd) :
    (train_test_split df fd).1 = df.take (df.length - min fd 90) ∧
    (train_test_split df fd).2 = df.drop (df.length - min fd 90) ∧
    (df.length ≤ min fd 90 → (train_test_split df fd).1 = []) := by
  rw [train_test_split_eq df fd (by omega)]
  refine ⟨rfl, rfl, fun h => ?_⟩
  simp [Nat.sub_eq_zero_of_le h]

/-- Witness for the amended C3 theorem at a concrete series and horizon. -/
theorem train_test_split_spec_witness :
    (train_test_split [(0, 1), (1, 2), (2, 3)] 2).1 =
      [(0, 1), (1, 2), (2, 3)].take ([(0, 1), (1, 2), (2, 3)].length - min 2 90) ∧
    (train_test_split [(0, 1), (1, 2), (2, 3)] 2).2 =
      [(0, 1), (1, 2), (2, 3)].drop ([(0, 1), (1, 2), (2, 3)].length - min 2 90) ∧
    ([(0, 1), (1, 2), (2, 3)].length ≤ min 2 90 →
      (train_test_split [(0, 1), (1, 2), (2, 3)] 2).1 = []) :=
  train_test_split_spec [(0, 1), (1, 2), (2, 3)] 2 (by decide)

/-- C10: when `0 < min(horizon, 90) < length(series)`, the train/test
split is an exact partition of the input series: train followed by test
reproduces the series with no row lost, duplicated or reordered. -/
theorem train_test_split_partition (df : List (ℤ × ℚ)) (fd : ℕ)
    (h1 : 0 < min fd 90) (h2 : min fd 90 < df.length) :
    (train_test_split df fd).1 ++ (train_test_split df fd).2 = df := by
  rw [train_test_split_eq df fd (by omega)]
  exact List.take_append_drop _ _

/-- Witness for C10 at a concrete three-point series with horizon 2. -/
theorem train_test_split_partition_witness :
    0 < min 2 90 ∧ min 2 90 < [((0 : ℤ), (1 : ℚ)), (1, 2), (2, 3)].length ∧
    (train_test_split [(0, 1), (1, 2), (2, 3)] 2).1 ++
      (train_test_split [(0, 1), (1, 2), (2, 3)] 2).2 = [(0, 1), (1, 2), (2, 3)] :=
  ⟨by decide, by decide,
    train_test_split_partition [(0, 1), (1, 2), (2, 3)] 2 (by decide) (by decide)⟩

/-- C4 counterexample: history holds price 10 at date 5 and the
predictions hold price 20 at the same date 5; the combined series keeps
the historical row `(5, 10)` and drops the predicted `(5, 20)`, contrary
to the claim that predictions take precedence. -/
theorem combined_series_collision_keeps_history :
    combined_series [(5, 10)] [(5, 20)] = [(5, 10)] ∧
    ((5 : ℤ), (20 : ℚ)) ∉ combined_series [(5, 10)] [(5, 20)] := by
  have h : combined_series [(5, 10)] [(5, 20)] = [(5, 10)] := by
    simp [combined_series, drop_duplicates_by_date, dedupStep]
  refine ⟨h, ?_⟩
  rw [h]
  decide

/-- C4 (amended): in the combined series of `compute_ma_signals`, history
takes precedence on a date collision: every row of the combined series is
either a historical row, or a prediction row whose date does not occur in
the history (pandas `drop_duplicates` keeps the first occurrence and the
history is concatenated before the predictions). -/
theorem combined_series_history_precedence (hist preds : List (ℤ × ℚ)) :
    ∀ p ∈ combined_series hist preds,
      p ∈ hist ∨ (p ∈ preds ∧ p.1 ∉ hist.map Prod.fst) := by
  intro p hp
  have hp2 : p ∈ drop_duplicates_by_date (hist ++ preds) := List.mem_mergeSort.mp hp
  unfold drop_duplicates_by_date at hp2
  rw [List.foldl_append] at hp2
  rcases foldl_dedup_mem preds _ p hp2 with h1 | ⟨h1, h2⟩
  · rcases foldl_dedup_mem hist [] p h1 with h | ⟨h, _⟩
    · simp at h
    · exact .inl h
  · refine .inr ⟨h1, fun hd => h2 ?_⟩
    exact foldl_dedup_dates hist [] p.1 (.inl hd)

/-- Witness for the amended C4 theorem: the prediction row `(6, 30)` (a
date absent from history) is in the combined series, and the theorem
applies to it. -/
theorem combined_series_history_precedence_witness :
    ((6 : ℤ), (30 : ℚ)) ∈ combined_series [(5, 10)] [(5, 20), (6, 30)] ∧
    (((6 : ℤ), (30 : ℚ)) ∈ [((5 : ℤ), (10 : ℚ))] ∨
      (((6 : ℤ), (30 : ℚ)) ∈ [((5 : ℤ), (20 : ℚ)), (6, 30)] ∧
        (6 : ℤ) ∉ [((5 : ℤ), (10 : ℚ))].map Prod.fst)) := by
  have hmem : ((6 : ℤ), (30 : ℚ)) ∈ combined_series [(5, 10)] [(5, 20), (6, 30)] :=
    List.mem_mergeSort.mpr (by decide)
  exact ⟨hmem, combined_series_history_precedence [(5, 10)] [(5, 20), (6, 30)] _ hmem⟩



/-! ## Helper lemmas for the evaluator and the forecaster -/

theorem sum_sq_nonneg (j : List (ℚ × ℚ)) :
    0 ≤ (j.map (fun p => (p.1 - p.2) ^ 2)).sum :=
  List.sum_nonneg (by
    intro x hx
    rcases List.mem_map.mp hx with ⟨p, _, rfl⟩
    exact sq_nonneg _)

theorem mse_nonneg (j : List (ℚ × ℚ)) : 0 ≤ mse j :=
  div_nonneg (sum_sq_nonneg j) (Nat.cast_nonneg _)

theorem sum_sq_eq_zero_iff (j : List (ℚ × ℚ)) :
    (j.map (fun p => (p.1 - p.2) ^ 2)).sum = 0 ↔ ∀ q ∈ j, q.1 = q.2 := by
  induction j with
  | nil => simp
  | cons a l ih =>
    simp only [List.map_cons, List.sum_cons, List.mem_cons]
    constructor
    · intro h
      have hz : (a.1 - a.2) ^ 2 = 0 ∧ (l.map (fun p => (p.1 - p.2) ^ 2)).sum = 0 := by
        constructor <;> nlinarith [sq_nonneg (a.1 - a.2), sum_sq_nonneg l]
      intro q hq
      rcases hq with rfl | hq
      · exact sub_eq_zero.mp (sq_eq_zero_iff.mp hz.1)
      · exact (ih.mp hz.2) q hq
    · intro h
      have ha : a.1 = a.2 := h a (.inl rfl)
      rw [ih.mpr (fun q hq => h q (.inr hq)), ha]
      simp

theorem mse_eq_zero_iff (j : List (ℚ × ℚ)) (h : j ≠ []) :
    mse j = 0 ↔ ∀ q ∈ j, q.1 = q.2 := by
  have hn : (j.length : ℚ) ≠ 0 := by simpa [List.length_eq_zero] using h
  unfold mse
  rw [div_eq_zero_iff]
  simp only [hn, or_false]
  exact sum_sq_eq_zero_iff j

theorem le_foldl_max (l : List ℤ) :
    ∀ a : ℤ, a ≤ l.foldl max a ∧ ∀ x ∈ l, x ≤ l.foldl max a := by
  induction l with
  | nil => intro a; exact ⟨le_refl a, by simp⟩
  | cons b t ih =>
    intro a
    refine ⟨le_trans (le_max_left a b) (ih (max a b)).1, ?_⟩
    intro x hx
    rcases List.mem_cons.mp hx with rfl | hx
    · exact le_trans (le_max_right a x) (ih (max a x)).1
    · exact (ih (max a b)).2 x hx

theorem mem_le_max_getD (l : List ℤ) (x : ℤ) (hx : x ∈ l) :
    x ≤ (l.max?).getD 0 := by
  cases l with
  | nil => exact absurd hx (List.not_mem_nil x)
  | cons a t =>
    have hm : (a :: t).max? = some (t.foldl max a) := rfl
    rw [hm, Option.getD_some]
    rcases List.mem_cons.mp hx with rfl | hx
    · exact (le_foldl_max t x).1
    · exact (le_foldl_max t a).2 x hx

/-- `fetch_data` on a nonempty MultiIndex frame reduces to the three-stage
column search. -/
theorem fetch_data_multi_nonempty (cols : List (String × String))
    (a : ℤ × List (Option ℚ)) (t : List (ℤ × List (Option ℚ))) :
    fetch_data (.multi cols (a :: t)) =
      (match cols.findIdx? (fun c => c.1 == "Close") with
       | some i => .ok (dropna (col_values (a :: t) i))
       | none =>
         match cols.findIdx? close_in_col with
         | some i => .ok (dropna (col_values (a :: t) i))
         | none =>
           match cols.findIdx? (fun c => c.1 == "Adj Close") with
           | some i => .ok (dropna (col_values (a :: t) i))
           | none => .error .noClose) := rfl

/-! ## Claim theorems for the evaluator, forecaster and normalizer -/

/-- C2 (divergence witness): on a joined set whose only actual value is
zero (`forecast yhat = 1` at date 0, `test y = 0` at date 0) the code
still returns a MAPE value — the division `|(y - yhat) / y|` is performed
with no zero guard (yielding `Inf` in the source's float arithmetic) and
the metric is not reported as undefined; the RMSE is also present. -/
theorem evaluate_zero_actual_mape_present :
    (evaluate [(0, 1)] [(0, 0)]).mape.isSome = true ∧
    (evaluate [(0, 1)] [(0, 0)]).rmse.isSome = true :=
  ⟨rfl, rfl⟩

/-- C6: when no forecast date occurs among the test dates, `evaluate`
returns both metrics as `None` — no exception, no zero value, and no
interpolated overlap. -/
theorem evaluate_disjoint_undefined (forecast test_df : List (ℤ × ℚ))
    (h : ∀ d ∈ forecast.map Prod.fst, d ∉ test_df.map Prod.fst) :
    evaluate forecast test_df = ⟨none, none⟩ := by
  have hpred : forecast.filter (fun r => test_df.any (fun t => t.1 == r.1)) = [] := by
    rw [List.filter_eq_nil_iff]
    intro r hr hany
    rcases List.any_eq_true.mp hany with ⟨t, ht, hbeq⟩
    have hteq : t.1 = r.1 := by simpa using hbeq
    exact h r.1 (List.mem_map_of_mem _ hr) (hteq ▸ List.mem_map_of_mem _ ht)
  have hj : joined_of forecast test_df = [] := by
    unfold joined_of
    rw [hpred]
    simp [joined_rows]
  simp [evaluate, hj]

/-- Witness for C6 on a concrete pair of date-disjoint series. -/
theorem evaluate_disjoint_undefined_witness :
    (∀ d ∈ [((1 : ℤ), (5 : ℚ))].map Prod.fst,
      d ∉ [((2 : ℤ), (7 : ℚ))].map Prod.fst) ∧
    evaluate [(1, 5)] [(2, 7)] = ⟨none, none⟩ :=
  ⟨by decide, evaluate_disjoint_undefined [(1, 5)] [(2, 7)] (by decide)⟩

/-- C7: on a non-empty joined set the reported RMSE is
`sqrt(mean((actual - predicted)^2))`, it is non-negative, and it is zero
exactly when predicted equals actual on every joined date. -/
theorem evaluate_rmse_spec (forecast test_df : List (ℤ × ℚ))
    (h : joined_of forecast test_df ≠ []) :
    ∃ r : ℝ, (evaluate forecast test_df).rmse = some r ∧
      r = Real.sqrt ((mse (joined_of forecast test_df) : ℚ) : ℝ) ∧
      0 ≤ r ∧
      (r = 0 ↔ ∀ q ∈ joined_of forecast test_df, q.1 = q.2) := by
  have hne : (joined_of forecast test_df).isEmpty = false :=
    List.isEmpty_eq_false.mpr h
  refine ⟨Real.sqrt ((mse (joined_of forecast test_df) : ℚ) : ℝ), ?_, rfl,
    Real.sqrt_nonneg _, ?_⟩
  · simp [evaluate, hne]
  · rw [Real.sqrt_eq_zero']
    constructor
    · intro hle
      have hq : mse (joined_of forecast test_df) ≤ 0 := by exact_mod_cast hle
      exact (mse_eq_zero_iff _ h).mp (le_antisymm hq (mse_nonneg _))
    · intro hall
      have h0 : mse (joined_of forecast test_df) = 0 := (mse_eq_zero_iff _ h).mpr hall
      rw [h0]
      simp

/-- Witness for C7 on a one-row joined set with a perfect prediction. -/
theorem evaluate_rmse_spec_witness :
    joined_of [((0 : ℤ), (3 : ℚ))] [((0 : ℤ), (3 : ℚ))] ≠ [] ∧
    (∃ r : ℝ, (evaluate [(0, 3)] [(0, 3)]).rmse = some r ∧
      r = Real.sqrt ((mse (joined_of [(0, 3)] [(0, 3)]) : ℚ) : ℝ) ∧
      0 ≤ r ∧
      (r = 0 ↔ ∀ q ∈ joined_of [((0 : ℤ), (3 : ℚ))] [((0 : ℤ), (3 : ℚ))], q.1 = q.2)) :=
  ⟨by decide, evaluate_rmse_spec [(0, 3)] [(0, 3)] (by decide)⟩

/-- C8: the next-30 forward table contains only dates strictly beyond
every historical date, holds at most 30 entries, stays chronologically
ordered when the forecast frame is, and consists of the first 30 rows of
the forecast filtered to dates after the last historical date. -/
theorem next_forecast_spec (df_full forecast_full : List (ℤ × ℚ))
    (hne : df_full ≠ [])
    (hsort : forecast_full.Pairwise (fun a b => a.1 < b.1)) :
    (∀ p ∈ next_forecast df_full forecast_full, ∀ q ∈ df_full, q.1 < p.1) ∧
    (next_forecast df_full forecast_full).length ≤ 30 ∧
    (next_forecast df_full forecast_full).Pairwise (fun a b => a.1 < b.1) ∧
    next_forecast df_full forecast_full =
      (forecast_full.filter
        (fun r => decide (((df_full.map Prod.fst).max?).getD 0 < r.1))).take 30 := by
  refine ⟨?_, List.length_take_le _ _, ?_, rfl⟩
  · intro p hp q hq
    have hp2 : p ∈ forecast_full.filter
        (fun r => decide (((df_full.map Prod.fst).max?).getD 0 < r.1)) :=
      List.mem_of_mem_take hp
    have hlt : ((df_full.map Prod.fst).max?).getD 0 < p.1 :=
      of_decide_eq_true (List.mem_filter.mp hp2).2
    have hq1 : q.1 ≤ ((df_full.map Prod.fst).max?).getD 0 :=
      mem_le_max_getD _ q.1 (List.mem_map_of_mem _ hq)
    exact lt_of_le_of_lt hq1 hlt
  · exact hsort.sublist ((List.take_sublist _ _).trans (List.filter_sublist _))

/-- Witness for C8: one historical point at date 0 and one forecast row
at date 1. -/
theorem next_forecast_spec_witness :
    ([((0 : ℤ), (1 : ℚ))] ≠ []) ∧
    List.Pairwise (fun a b => a.1 < b.1) [((1 : ℤ), (2 : ℚ))] ∧
    ((∀ p ∈ next_forecast [((0 : ℤ), (1 : ℚ))] [((1 : ℤ), (2 : ℚ))],
        ∀ q ∈ [((0 : ℤ), (1 : ℚ))], q.1 < p.1) ∧
      (next_forecast [((0 : ℤ), (1 : ℚ))] [((1 : ℤ), (2 : ℚ))]).length ≤ 30 ∧
      (next_forecast [((0 : ℤ), (1 : ℚ))] [((1 : ℤ), (2 : ℚ))]).Pairwise
        (fun a b => a.1 < b.1) ∧
      next_forecast [((0 : ℤ), (1 : ℚ))] [((1 : ℤ), (2 : ℚ))] =
        ([((1 : ℤ), (2 : ℚ))].filter
          (fun r => decide ((([((0 : ℤ), (1 : ℚ))].map Prod.fst).max?).getD 0 < r.1))).take 30) :=
  ⟨by decide, by simp,
    next_forecast_spec [(0, 1)] [(1, 2)] (by decide) (by simp)⟩

/-- C9 counterexample: a nonempty MultiIndex frame with a Close column
whose every value is missing: after `dropna` the series is empty, and
`fetch_data` returns the empty series (`.ok []`) to the caller instead of
raising — the claim's fail-on-empty-result clause does not hold. -/
theorem fetch_data_empty_series_returned :
    fetch_data (.multi [("Close", "RY")] [(0, [none])]) = .ok [] ∧
    ∀ e, fetch_data (.multi [("Close", "RY")] [(0, [none])]) ≠ .error e := by
  have h : fetch_data (.multi [("Close", "RY")] [(0, [none])]) = .ok [] := rfl
  exact ⟨h, fun e he => Except.noConfusion (h ▸ he)⟩

/-- C9 (amended): on an empty frame `fetch_data` returns the frame
(an empty result the caller tests for) rather than failing, and on a
nonempty MultiIndex frame it raises exactly when no column label carries
`"Close"` in either level (in which case the `"Adj Close"` fallback can
never fire either, since `"Adj Close"` contains `"Close"`). -/
theorem fetch_data_error_characterization (cols : List (String × String))
    (rows : List (ℤ × List (Option ℚ))) (hrows : rows ≠ []) :
    fetch_data (.multi cols []) = .ok [] ∧
    ((∃ e, fetch_data (.multi cols rows) = .error e) ↔
      ∀ c ∈ cols, close_in_col c = false) := by
  obtain ⟨a, t, rfl⟩ : ∃ a t, rows = a :: t := by
    cases rows with
    | nil => exact absurd rfl hrows
    | cons a t => exact ⟨a, t, rfl⟩
  refine ⟨rfl, ?_, ?_⟩
  · rintro ⟨e, he⟩
    rw [fetch_data_multi_nonempty] at he
    rcases h1 : cols.findIdx? (fun c => c.1 == "Close") with _ | i
    · rw [h1] at he
      rcases h2 : cols.findIdx? close_in_col with _ | i
      · exact List.findIdx?_eq_none_iff.mp h2
      · rw [h2] at he
        exact Except.noConfusion he
    · rw [h1] at he
      exact Except.noConfusion he
  · intro hall
    have h1 : cols.findIdx? (fun c => c.1 == "Close") = none := by
      rw [List.findIdx?_eq_none_iff]
      intro c hc
      have hcc := hall c hc
      unfold close_in_col at hcc
      exact (Bool.or_eq_false_iff.mp (Bool.or_eq_false_iff.mp hcc).1).1
    have h2 : cols.findIdx? close_in_col = none :=
      List.findIdx?_eq_none_iff.mpr hall
    have h3 : cols.findIdx? (fun c => c.1 == "Adj Close") = none := by
      rw [List.findIdx?_eq_none_iff]
      intro c hc
      have hcc := hall c hc
      cases hb : (c.1 == "Adj Close") with
      | false => rfl
      | true =>
        have hc1 : c.1 = "Adj Close" := by simpa using hb
        have htrue : close_in_col c = true := by
          unfold close_in_col
          rw [hc1]
          have hsub : contains_str "Adj Close" "Close" = true := rfl
          simp [hsub]
        rw [htrue] at hcc
        exact Bool.noConfusion hcc
    rw [fetch_data_multi_nonempty, h1, h2, h3]
    exact ⟨.noClose, rfl⟩

/-- Witness for the amended C9 theorem: a one-column frame labelled
`("Open", "RY")` with one present value. -/
theorem fetch_data_error_characterization_witness :
    ([((0 : ℤ), [some (1 : ℚ)])] ≠ []) ∧
    (fetch_data (.multi [("Open", "RY")] []) = .ok [] ∧
      ((∃ e, fetch_data (.multi [("Open", "RY")] [(0, [some 1])]) = .error e) ↔
        ∀ c ∈ [("Open", "RY")], close_in_col c = false)) :=
  ⟨by decide,
    fetch_data_error_characterization [("Open", "RY")] [(0, [some 1])] (by decide)⟩

end RBC
